import Mathlib

/-!
Verification of the stattic static-site generator core against its
natural-language specification.

The development shallowly embeds the relevant parts of
`stattic_pkg/url_validator.py` and `stattic_pkg/core.py`:

* pure string and path manipulation is translated to executable Lean
  functions over `String`/`List Char`;
* the filesystem state touched by the image pipeline (the output images
  directory) is modelled as a list of existing paths threaded through the
  functions, and the side effects that matter to the claims (validation,
  HTTP fetches, local reads, file writes, log lines) are recorded in an
  explicit event trace;
* genuinely external effects (DNS answers, HTTP success, image-codec
  success, `os.path.abspath`, MD5 digests) are supplied as deterministic
  oracle functions bundled in a `World` value, one field per effect.
-/

namespace Stattic

/-! ## String utilities mirroring Python `str` / `os.path` operations -/

/-- Membership test for a (nonempty) pattern inside a string, mirroring
Python's `pat in s`. -/
def containsSubstrGo (pat : List Char) : List Char → Bool
  | [] => pat.isEmpty
  | c :: cs => pat.isPrefixOf (c :: cs) || containsSubstrGo pat cs

/-- Python's `pat in s` substring test. -/
def containsSubstr (s pat : String) : Bool :=
  containsSubstrGo pat.data s.data

/-- Python's `s.startswith(p)`. -/
def strStartsWith (s p : String) : Bool :=
  p.data.isPrefixOf s.data

/-- Python's `s.endswith(p)`. -/
def strEndsWith (s p : String) : Bool :=
  p.data.isSuffixOf s.data

/-- ASCII lower-casing of one character (the only case change Python's
`str.lower` performs on the ASCII hostnames and URLs involved here). -/
def lowerChar (c : Char) : Char :=
  if 'A' ≤ c && c ≤ 'Z' then Char.ofNat (c.toNat + 32) else c

/-- Python's `s.lower()` restricted to ASCII case folding. -/
def lowerStr (s : String) : String :=
  ⟨s.data.map lowerChar⟩

/-- Model of `os.path.join(d, f)` for the forward-slash paths used by the code. -/
def joinPath (d f : String) : String :=
  d ++ "/" ++ f

/-- Characters after the last `'/'` (the whole list when there is no
slash). -/
def baseNameGo : List Char → List Char → List Char
  | [], acc => acc.reverse
  | c :: cs, acc => if c = '/' then baseNameGo cs [] else baseNameGo cs (c :: acc)

/-- Model of `os.path.basename`: the component after the last slash. -/
def baseName (p : String) : String :=
  ⟨baseNameGo p.data []⟩

/-- Split a character list at its last dot: `some (before, after)` when a
dot exists, `none` otherwise. Backs `rsplit('.', 1)` and
`os.path.splitext`. -/
def rsplitDot : List Char → Option (List Char × List Char)
  | [] => none
  | c :: cs =>
    match rsplitDot cs with
    | some (t, e) => some (c :: t, e)
    | none => if c = '.' then some ([], cs) else none

/-- Python's `p.rsplit('.', 1)[0]`: everything before the last dot, or the
whole string when it has no dot. -/
def rsplitDotHead (p : String) : String :=
  match rsplitDot p.data with
  | some (t, _) => ⟨t⟩
  | none => p

/-- The `.webp` sibling path `p.rsplit('.', 1)[0] + '.webp'` used
throughout `core.py`. -/
def webpOf (p : String) : String :=
  rsplitDotHead p ++ ".webp"

/-- Model of `os.path.splitext(p)` (ext includes the dot; dotless names get `""`). -/
def splitExt (p : String) : String × String :=
  match rsplitDot p.data with
  | some (t, e) => (⟨t⟩, ⟨'.' :: e⟩)
  | none => (p, "")

/-! ## URLValidator (`stattic_pkg/url_validator.py`)

`urllib.parse.urlparse` is Python standard library, outside the repository;
its output is taken as input in the form of a `ParsedURL` record holding
the fields the validator reads (`scheme`, `netloc`, `hostname`).  DNS
resolution (`socket.getaddrinfo`) is an oracle `dns` mapping a hostname to
either a resolution error or the list of resolved addresses, already
parsed into numeric form the way `ipaddress.ip_address` would. -/

/-- A resolved IP address: IPv4 as a 32-bit value, IPv6 as a 128-bit
value. -/
inductive IPAddr where
  | v4 (a : Nat)
  | v6 (a : Nat)
deriving DecidableEq, Repr

/-- One CIDR range of `BLOCKED_IP_RANGES`: address family, base address and
plain prefix length. -/
structure CIDR where
  isV6 : Bool
  base : Nat
  plen : Nat
deriving DecidableEq, Repr

/-- Model of `ip in network` for a CIDR range (same-family, high `plen` bits
agree). -/
def CIDR.containsIp (n : CIDR) (ip : IPAddr) : Bool :=
  match ip with
  | .v4 a => !n.isV6 && (a / 2 ^ (32 - n.plen) == n.base / 2 ^ (32 - n.plen))
  | .v6 a => n.isV6 && (a / 2 ^ (128 - n.plen) == n.base / 2 ^ (128 - n.plen))

/-- Numeric value of a dotted-quad IPv4 literal. -/
def ipv4 (a b c d : Nat) : Nat :=
  ((a * 256 + b) * 256 + c) * 256 + d

/-- Model of `URLValidator.BLOCKED_IP_RANGES`, transcribed range by range. -/
def BLOCKED_IP_RANGES : List CIDR :=
  [ ⟨false, ipv4 0 0 0 0, 8⟩          -- 0.0.0.0/8
  , ⟨false, ipv4 10 0 0 0, 8⟩         -- 10.0.0.0/8
  , ⟨false, ipv4 100 64 0 0, 10⟩      -- 100.64.0.0/10
  , ⟨false, ipv4 127 0 0 0, 8⟩        -- 127.0.0.0/8
  , ⟨false, ipv4 169 254 0 0, 16⟩     -- 169.254.0.0/16
  , ⟨false, ipv4 172 16 0 0, 12⟩      -- 172.16.0.0/12
  , ⟨false, ipv4 192 0 0 0, 24⟩       -- 192.0.0.0/24
  , ⟨false, ipv4 192 0 2 0, 24⟩       -- 192.0.2.0/24
  , ⟨false, ipv4 192 88 99 0, 24⟩     -- 192.88.99.0/24
  , ⟨false, ipv4 192 168 0 0, 16⟩     -- 192.168.0.0/16
  , ⟨false, ipv4 198 18 0 0, 15⟩      -- 198.18.0.0/15
  , ⟨false, ipv4 198 51 100 0, 24⟩    -- 198.51.100.0/24
  , ⟨false, ipv4 203 0 113 0, 24⟩     -- 203.0.113.0/24
  , ⟨false, ipv4 224 0 0 0, 4⟩        -- 224.0.0.0/4
  , ⟨false, ipv4 240 0 0 0, 4⟩        -- 240.0.0.0/4
  , ⟨false, ipv4 255 255 255 255, 32⟩ -- 255.255.255.255/32
  , ⟨true, 1, 128⟩                    -- ::1/128
  , ⟨true, 0, 128⟩                    -- ::/128
  , ⟨true, 0xffff * 2 ^ 32, 96⟩       -- ::ffff:0:0/96
  , ⟨true, 0xfe80 * 2 ^ 112, 10⟩      -- fe80::/10
  , ⟨true, 0xfc00 * 2 ^ 112, 7⟩       -- fc00::/7
  , ⟨true, 0xff00 * 2 ^ 112, 8⟩       -- ff00::/8
  ]

/-- Model of `URLValidator.ALLOWED_SCHEMES`. -/
def ALLOWED_SCHEMES : List String := ["http", "https"]

/-- Model of `URLValidator.BLOCKED_HOSTNAMES`. -/
def BLOCKED_HOSTNAMES : List String :=
  [ "localhost", "localhost.localdomain", "ip6-localhost", "ip6-loopback"
  , "broadcasthost", "0.0.0.0", "127.0.0.1", "::1"
  , "metadata.google.internal", "169.254.169.254" ]

/-- Model of `URLValidator._is_ip_allowed`: true iff the address lies in none of the
blocked ranges (`ipaddress.ip_address` parse failures are handled before
this point by construction of `IPAddr`). -/
def _is_ip_allowed (ip : IPAddr) : Bool :=
  !(BLOCKED_IP_RANGES.any fun n => n.containsIp ip)

/-- The `urlparse` fields read by the validator; `hostname = none` models
a missing/empty hostname. -/
structure ParsedURL where
  scheme : String
  netloc : String
  hostname : Option String
deriving DecidableEq, Repr

/-- The allowlist membership test of `validate_url` (exact match or
dot-separated subdomain). -/
def domainAllowed (hostname : String) (domains : List String) : Bool :=
  domains.any fun d =>
    lowerStr hostname == lowerStr d ||
      strEndsWith (lowerStr hostname) ("." ++ lowerStr d)

/-- The literal substrings searched for by
`URLValidator._check_url_patterns` (each regex there matches a fixed
string). -/
def suspiciousPatterns : List String :=
  [ "%2f%2f", "%5c%5c", "../", "%2e%2e%2f", "file://", "ftp://"
  , "gopher://", "data://", "javascript:" ]

/-- Model of `URLValidator._check_url_patterns`: no suspicious substring in the
lowered URL, and no `@` inside a nonempty netloc. -/
def _check_url_patterns (url : String) (parsed : ParsedURL) : Bool :=
  !(suspiciousPatterns.any fun p => containsSubstr (lowerStr url) p) &&
    !(!(parsed.netloc == "") && parsed.netloc.data.contains '@')

/-- Model of `URLValidator.validate_url`.  `dns` stands for
`_resolve_hostname`/`socket.getaddrinfo`; an `Except.error` covers both the
`gaierror` and the generic DNS-exception branch (both return `False`). -/
def validate_url (dns : String → Except String (List IPAddr)) (url : String)
    (parsed : ParsedURL) (allowedDomains : Option (List String)) :
    Bool × String :=
  if parsed.scheme == "" || parsed.netloc == "" then
    (false, "Invalid URL format")
  else if !(ALLOWED_SCHEMES.contains (lowerStr parsed.scheme)) then
    (false, "Unsupported URL scheme: " ++ parsed.scheme)
  else
    match parsed.hostname with
    | none => (false, "Invalid hostname in URL")
    | some hostname =>
      if BLOCKED_HOSTNAMES.contains (lowerStr hostname) then
        (false, "Blocked hostname: " ++ hostname)
      else if (match allowedDomains with
               | some ds => !ds.isEmpty && !(domainAllowed hostname ds)
               | none => false) then
        (false, "Domain not in allowlist: " ++ hostname)
      else
        match dns hostname with
        | .error _ => (false, "Cannot resolve hostname: " ++ hostname)
        | .ok ips =>
          match ips.find? (fun ip => !(_is_ip_allowed ip)) with
          | some _ => (false, "Blocked IP address")
          | none =>
            if !(_check_url_patterns url parsed) then
              (false, "URL contains suspicious patterns")
            else
              (true, "URL is valid")

/-! ## Image pipeline (`FileProcessor` in `stattic_pkg/core.py`)

The filesystem visible to the pipeline (the output images directory) is a
list of existing file paths, threaded through every function.  Side
effects relevant to the claims are recorded as events.  External,
response-dependent behaviour is supplied by deterministic oracles in
`World`:

* `sanitize` stands for `_sanitize_filename_without_uniqueness` (its MD5
  hash fallback cannot be computed in the embedding, so the whole
  deterministic URL-to-base-filename function is an oracle);
* `validOk` is the outcome of `url_validator.validate_url` for a URL;
* `netOk` collapses the deterministic success of `safe_get`, the
  content-type and size checks, and the streamed write of the body;
* `convOk url` is the success of the Pillow WebP encode of the file
  fetched or copied for `url` (with a deterministic network, the image
  bytes — hence codec success — are a function of the source reference);
* `copyOk` collapses the size check and `shutil.copy2` success;
* `localExists` is `os.path.exists` for source-side (content tree) files,
  which the pipeline never modifies;
* `localBase` is the `os.path.basename`-plus-sanitization step of
  `copy_local_image`;
* `abspath` is `os.path.abspath`;
* `hashHex` is the truncated MD5 hex digest used in fallback filenames;
* `mdDir` is `os.path.dirname(markdown_file_path)` and `contentDir`,
  `imagesDir` are `self.content_dir`, `self.images_dir`. -/

/-- The modelled filesystem: the set of existing output files. -/
abbrev FS := List String

/-- Model of `os.path.exists` on the modelled output filesystem. -/
def fsExists (fs : FS) (p : String) : Bool :=
  decide (p ∈ fs)

/-- Creating/overwriting a file. -/
def fsAdd (fs : FS) (p : String) : FS :=
  p :: fs

/-- Model of `os.remove` (via `_safe_remove_file`, which ignores a missing file). -/
def fsRemove (fs : FS) (p : String) : FS :=
  fs.filter (fun q => !(q == p))

/-- Observable side effects of the pipeline. -/
inductive Ev where
  | validate (url : String)
  | httpGet (url : String)
  | readLocal (path : String)
  | writeFile (path : String)
  | logWarn (msg : String)
  | logInfo (msg : String)
deriving DecidableEq, Repr

/-- Deterministic oracles and configuration for one pipeline run. -/
structure World where
  sanitize : String → String
  validOk : String → Bool
  netOk : String → Bool
  convOk : String → Bool
  copyOk : String → Bool
  localExists : String → Bool
  localBase : String → String
  abspath : String → String
  hashHex : String → String
  mdDir : String
  contentDir : String
  imagesDir : String

/-- The extension gate at the top of `download_image`. -/
def hasValidImageExt (url : String) : Bool :=
  [".jpg", ".jpeg", ".png", ".gif", ".webp", ".bmp", ".tiff"].any
    (fun e => strEndsWith (lowerStr url) e)

/-- The collision loop of `_make_filename_unique`; `fuel` bounds the
iteration exactly like the source's `counter > 1000` escape (1001 units of
fuel are enough for the loop to reach its hash fallback). -/
def makeUniqueLoop (w : World) (orig output_dir : String) (fs : FS) :
    Nat → String → Nat → String
  | 0, filename, _ => filename
  | fuel + 1, filename, counter =>
    if fsExists fs (joinPath output_dir filename) then
      let p := splitExt orig
      let filename2 := p.1 ++ "_" ++ toString counter ++ p.2
      let counter2 := counter + 1
      if counter2 > 1000 then
        "image_" ++ w.hashHex orig ++ "_" ++ toString counter2 ++ ".jpg"
      else
        makeUniqueLoop w orig output_dir fs fuel filename2 counter2
    else
      filename

/-- Model of `FileProcessor._make_filename_unique`. -/
def _make_filename_unique (w : World) (base_filename output_dir : String)
    (fs : FS) : String :=
  makeUniqueLoop w base_filename output_dir fs 1001 base_filename 1

/-- Model of `FileProcessor.convert_image_to_webp`.  `ok` is the codec-success
oracle outcome for this source; the directory check, the pixel-count
limits and the written-file verifications are collapsed into it.  On
success the original file is removed after the `.webp` is written; on
failure any partial `.webp` output is removed. -/
def convert_image_to_webp (ok : Bool) (image_path : String) (fs : FS) :
    Option String × FS :=
  if strEndsWith image_path ".webp" then
    if fsExists fs image_path then (some image_path, fs) else (none, fs)
  else
    let webp_path := webpOf image_path
    if ok then
      (some webp_path, fsRemove (fsAdd fs webp_path) image_path)
    else
      (none, fsRemove fs webp_path)

/-- Model of `FileProcessor.download_image`.  Returns the resulting path, the new
filesystem and the event trace.  The path-traversal re-check on the final
path always passes for paths formed with `joinPath` from a sanitized
name and is folded into `netOk` together with the response checks. -/
def download_image (w : World) (url output_dir : String) (fs : FS) :
    Option String × FS × List Ev :=
  if !(hasValidImageExt url) then
    (none, fs, [])
  else if strStartsWith url "http" then
    if !(w.validOk url) then
      (none, fs, [.validate url, .logWarn ("SSRF protection blocked URL " ++ url)])
    else
      let base_image_name := w.sanitize url
      let base_image_path := joinPath output_dir base_image_name
      let base_webp_path := webpOf base_image_path
      if fsExists fs base_webp_path then
        (some base_webp_path, fs,
          [.validate url, .logInfo ("Using cached WebP image: " ++ base_webp_path)])
      else
        let image_name := _make_filename_unique w base_image_name output_dir fs
        let image_path := joinPath output_dir image_name
        if !(w.netOk url) then
          (none, fs, [.validate url, .httpGet url, .logWarn ("Failed to download image " ++ url)])
        else
          (some image_path, fsAdd fs image_path,
            [.validate url, .httpGet url, .writeFile image_path])
  else
    (none, fs, [])

/-- Model of `FileProcessor.copy_local_image`.  The `abspath`-containment re-check
on `base_dest_path` always passes for `joinPath`-formed destinations and
is omitted (in the source it raises only for names that survive its own
basename sanitization with separators, which cannot happen). -/
def copy_local_image (w : World) (local_image_path : String) (fs : FS) :
    Option String × FS × List Ev :=
  if !(w.localExists local_image_path) then
    (none, fs, [])
  else
    let base_image_name := w.localBase local_image_path
    let base_dest_path := joinPath w.imagesDir base_image_name
    let base_webp_path := webpOf base_dest_path
    if fsExists fs base_webp_path then
      (some base_webp_path, fs,
        [.logInfo ("Using cached WebP image: " ++ base_webp_path)])
    else
      let image_name := _make_filename_unique w base_image_name w.imagesDir fs
      let dest_path := joinPath w.imagesDir image_name
      if fsExists fs dest_path then
        (some dest_path, fs, [])
      else if !(w.copyOk local_image_path) then
        (none, fs, [.logWarn ("Failed to copy image " ++ local_image_path)])
      else
        (some dest_path, fsAdd fs dest_path,
          [.readLocal local_image_path, .writeFile dest_path])

/-- The `webp_name` sanitization in `process_images` before the public
`/images/...` path is formed. -/
def mungeWebpName (w : World) (webp_path : String) : String :=
  let n := baseName webp_path
  if containsSubstr n ".." || n.data.contains '/' || n.data.contains '\\' then
    w.hashHex webp_path ++ ".webp"
  else
    n

/-- Result of handling one image reference inside `process_images`. -/
structure StepResult where
  mapping : Option String
  converted : Nat
  cached : Nat
  fs : FS
  evs : List Ev
deriving DecidableEq, Repr

/-- The tail of the `process_images` loop body after a reference has been
resolved to `image_path`: the cached-WebP check, the conversion, the
counters and the `local_image_paths` entry. -/
def afterResolve (w : World) (url : String) (image_path : Option String)
    (fs : FS) (evs : List Ev) : StepResult :=
  match image_path with
  | none => ⟨none, 0, 0, fs, evs⟩
  | some p =>
    if strEndsWith p ".webp" then
      ⟨some ("/images/" ++ mungeWebpName w p), 0, 1, fs, evs⟩
    else
      match convert_image_to_webp (w.convOk url) p fs with
      | (some wp, fs2) => ⟨some ("/images/" ++ mungeWebpName w wp), 1, 0, fs2, evs⟩
      | (none, fs2) => ⟨none, 0, 0, fs2, evs⟩

/-- The safety test on a resolved local path in `process_images`
(`abspath` containment in the content dir or the markdown dir). -/
def localPathSafe (w : World) (full_local_path : String) : Bool :=
  strStartsWith (w.abspath full_local_path) (w.abspath w.contentDir) ||
    strStartsWith (w.abspath full_local_path) (w.abspath w.mdDir)

/-- One iteration of the `for url in image_urls` loop of
`process_images`: classification as local or remote, the local-path
safety gates, resolution and conversion. -/
def processOneUrl (w : World) (mdPath : Option String) (url : String)
    (fs : FS) : StepResult :=
  if !(strStartsWith url "http") && !(strStartsWith url "//") then
    match mdPath with
    | none => ⟨none, 0, 0, fs, []⟩
    | some _ =>
      if containsSubstr url ".." || strStartsWith url "/" then
        ⟨none, 0, 0, fs, [.logWarn ("Skipping potentially unsafe image path: " ++ url)]⟩
      else
        let full_local_path := joinPath w.mdDir url
        if !(localPathSafe w full_local_path) then
          ⟨none, 0, 0, fs, [.logWarn ("Skipping image path outside content directory: " ++ url)]⟩
        else
          match copy_local_image w full_local_path fs with
          | (ip, fs2, evs) => afterResolve w url ip fs2 evs
  else
    match download_image w url w.imagesDir fs with
    | (ip, fs2, evs) => afterResolve w url ip fs2 evs

/-- Accumulated result of the `process_images` loop. -/
structure LoopResult where
  map : List (String × String)
  converted : Nat
  cached : Nat
  fs : FS
  evs : List Ev
deriving DecidableEq, Repr

/-- The whole `for url in image_urls` loop; `map` collects
`local_image_paths` in insertion order. -/
def processImagesLoop (w : World) (mdPath : Option String) :
    List String → FS → LoopResult
  | [], fs => ⟨[], 0, 0, fs, []⟩
  | url :: rest, fs =>
    let s := processOneUrl w mdPath url fs
    let r := processImagesLoop w mdPath rest s.fs
    ⟨(match s.mapping with | some p => [(url, p)] | none => []) ++ r.map,
      s.converted + r.converted, s.cached + r.cached, r.fs, s.evs ++ r.evs⟩

/-! Replacement primitives for the rewrite phase.  `replaceAllGo` is
Python's `str.replace` (left-to-right, non-overlapping); `subLAGo` is
`re.sub(re.escape(orig) + '(?=\s|,|$)', new, content)`: a literal match
that must be followed by whitespace, a comma, or the end of the string.
Both use list-length fuel so that they are structural recursions. -/

def replaceAllGo (pat new : List Char) : Nat → List Char → List Char
  | _, [] => []
  | 0, l => l
  | fuel + 1, c :: cs =>
    if !pat.isEmpty && pat.isPrefixOf (c :: cs) then
      new ++ replaceAllGo pat new fuel ((c :: cs).drop pat.length)
    else
      c :: replaceAllGo pat new fuel cs

/-- Python's `content.replace(pat, new)`. -/
def strReplace (content pat new : String) : String :=
  ⟨replaceAllGo pat.data new.data content.data.length content.data⟩

/-- Python's `\s` on the ASCII range, plus the comma of the lookahead. -/
def isWsOrComma (c : Char) : Bool :=
  c == ' ' || c == '\t' || c == '\n' || c == '\r' ||
    c == '\x0b' || c == '\x0c' || c == ','

/-- Does the lookahead `(?=\s|,|$)` accept at this point? -/
def laOk : List Char → Bool
  | [] => true
  | d :: _ => isWsOrComma d

def subLAGo (pat new : List Char) : Nat → List Char → List Char
  | _, [] => []
  | 0, l => l
  | fuel + 1, c :: cs =>
    if !pat.isEmpty && pat.isPrefixOf (c :: cs) &&
        laOk ((c :: cs).drop pat.length) then
      new ++ subLAGo pat new fuel ((c :: cs).drop pat.length)
    else
      c :: subLAGo pat new fuel cs

/-- Model of `re.sub(re.escape(pat) + '(?=\s|,|$)', new, content)`. -/
def strSubLA (content pat new : String) : String :=
  ⟨subLAGo pat.data new.data content.data.length content.data⟩

/-- The four reference rewrites applied for one
`(original_url, new_path)` entry of `local_image_paths`. -/
def applyRewrite (content : String) (m : String × String) : String :=
  let c1 := strReplace content ("src=\"" ++ m.1 ++ "\"") ("src=\"" ++ m.2 ++ "\"")
  let c2 := strReplace c1 ("href=\"" ++ m.1 ++ "\"") ("href=\"" ++ m.2 ++ "\"")
  let c3 := strReplace c2 ("](" ++ m.1 ++ ")") ("](" ++ m.2 ++ ")")
  strSubLA c3 m.1 m.2

/-- The rewrite loop over `local_image_paths.items()`. -/
def applyRewrites (content : String) (ms : List (String × String)) : String :=
  ms.foldl applyRewrite content

/-- Model of `set(...)` deduplication of the extracted reference list; the list
order stands for the (implementation-defined) set iteration order, with
first occurrences kept. -/
def dedupKeepFirst : List String → List String → List String
  | [], _ => []
  | u :: rest, seen =>
    if seen.contains u then dedupKeepFirst rest seen
    else u :: dedupKeepFirst rest (u :: seen)

/-- Result of `FileProcessor.process_images`. -/
structure ProcResult where
  text : String
  converted : Nat
  cached : Nat
  fs : FS
  evs : List Ev
deriving DecidableEq, Repr

/-- Model of `FileProcessor.process_images`.  `extractedUrls` is the concatenation
of the four regex scans over `content` (markdown images, `<img src>`,
`<a href>`, `srcset` entries); the function deduplicates it, resolves and
converts each reference, and rewrites the text. -/
def process_images (w : World) (extractedUrls : List String)
    (mdPath : Option String) (content : String) (fs : FS) : ProcResult :=
  let r := processImagesLoop w mdPath (dedupKeepFirst extractedUrls []) fs
  ⟨applyRewrites content r.map, r.converted, r.cached, r.fs, r.evs⟩

/-! `srcset` extraction: `re.findall(r'srcset="([^"]+)"', content)`
followed by `re.findall(r'([^\s,]+)', s)` on each value. -/

/-- Characters of a value up to the closing quote; `none` when the quote
never closes. -/
def takeUntilQuote : List Char → Option (List Char × List Char)
  | [] => none
  | c :: cs =>
    if c = '"' then some ([], cs)
    else
      match takeUntilQuote cs with
      | some (v, r) => some (c :: v, r)
      | none => none

/-- A `srcset="([^"]+)"` match attempt at the current position. -/
def takeSrcsetVal (l : List Char) : Option (List Char × List Char) :=
  match takeUntilQuote l with
  | some (v, r) => if v.isEmpty then none else some (v, r)
  | none => none

def scanSrcsetGo : Nat → List Char → List String
  | 0, _ => []
  | _, [] => []
  | fuel + 1, c :: cs =>
    if ("srcset=\"".data).isPrefixOf (c :: cs) then
      match takeSrcsetVal ((c :: cs).drop ("srcset=\"".length)) with
      | some (v, rest) => String.mk v :: scanSrcsetGo fuel rest
      | none => scanSrcsetGo fuel cs
    else
      scanSrcsetGo fuel cs

/-- Model of `re.findall(r'([^\s,]+)', s)`: maximal runs of non-space, non-comma
characters. -/
def splitSrcsetTokensGo : List Char → List Char → List String
  | [], acc => if acc.isEmpty then [] else [String.mk acc.reverse]
  | c :: cs, acc =>
    if isWsOrComma c then
      if acc.isEmpty then splitSrcsetTokensGo cs []
      else String.mk acc.reverse :: splitSrcsetTokensGo cs []
    else
      splitSrcsetTokensGo cs (c :: acc)

def splitSrcsetTokens (s : String) : List String :=
  splitSrcsetTokensGo s.data []

/-- The `srcset` arm of the reference extraction in `process_images`. -/
def extract_srcset_urls (content : String) : List String :=
  ((scanSrcsetGo content.data.length content.data).map splitSrcsetTokens).flatten

/-! ## Invariants used by the theorems -/

/-- An oracle world where every external step succeeds and every remote
reference has `photo.jpg` as its sanitized base name (as the real
sanitizer gives for any `http://<host>/.../photo.jpg` URL). -/
def wPhoto : World where
  sanitize := fun _ => "photo.jpg"
  validOk := fun _ => true
  netOk := fun _ => true
  convOk := fun _ => true
  copyOk := fun _ => true
  localExists := fun _ => false
  localBase := baseName
  abspath := id
  hashHex := fun _ => "0123456789ab"
  mdDir := ""
  contentDir := ""
  imagesDir := "images"

/-- World for the `srcset` scenario: `a.jpg` and `b.jpg` exist next to the
markdown file, only `a.jpg` converts successfully. -/
def wSrcset : World :=
  { wPhoto with
    convOk := fun u => u == "a.jpg"
    localExists := fun p =>
      p == "content/posts/a.jpg" || p == "content/posts/b.jpg"
    mdDir := "content/posts"
    contentDir := "content" }

/-- The `srcset` scenario content. -/
def c9content : String := "<img srcset=\"a.jpg 1x, b.jpg 2x\">"

/-- A `srcset` value in which one entry's URL (`b.jpg`) is a trailing
fragment of another entry's URL (`ab.jpg`). -/
def c9bContent : String := "<img srcset=\"b.jpg 1x, ab.jpg 2x\">"

/-- World for the trailing-fragment `srcset` scenario: only `b.jpg`
exists next to the markdown file and converts successfully. -/
def wSrcsetB : World :=
  { wPhoto with
    convOk := fun u => u == "b.jpg"
    localExists := fun p => p == "content/posts/b.jpg"
    mdDir := "content/posts"
    contentDir := "content" }

/-! ## Output reconciliation (`Stattic.create_output_dir`) -/

/-- A top-level entry of the existing output root: a regular file with
its bytes, or a directory with its entries. -/
inductive FsTree where
  | file (content : String)
  | dir (entries : List (String × FsTree))

/-- The `stattic_generated` set of generator-owned names: the fixed root
filenames, the generated directories, the configured blog slug, the
legacy `feed` directory, plus the slugs derived from the current content
pages (`pageSlugs`, read from the front matter under `content/pages`). -/
def stattic_generated (blog_slug : String) (pageSlugs : List String) :
    List String :=
  ["index.html", "404.html", "sitemap.xml", "robots.txt", "llms.txt",
    "rss.xml", "assets", "images", blog_slug, "feed"] ++ pageSlugs

/-- The in-place cleanup of the images directory: non-`.webp` regular
files are removed, `.webp` artifacts and subdirectories stay. -/
def cleanImagesDir : List (String × FsTree) → List (String × FsTree)
  | [] => []
  | (n, FsTree.file c) :: rest =>
    if strEndsWith n ".webp" then (n, FsTree.file c) :: cleanImagesDir rest
    else cleanImagesDir rest
  | (n, FsTree.dir es) :: rest => (n, FsTree.dir es) :: cleanImagesDir rest

/-- Model of `Stattic.create_output_dir` on an existing output root: every
top-level entry whose name is generator-owned is removed — except that
`assets` is rebuilt via `_clean_assets_preserving_fonts` (abstracted as
`cleanAssets`) when the font cache is complete (`fontsPreserve` is the
outcome of `self.fonts and self._fonts_are_cached(...)`), and inside
`images` only non-`.webp` files are deleted.  Every other entry is left
completely untouched. -/
def create_output_dir (blog_slug : String) (pageSlugs : List String)
    (fontsPreserve : Bool) (cleanAssets : FsTree → FsTree)
    (items : List (String × FsTree)) : List (String × FsTree) :=
  items.filterMap fun it =>
    if (stattic_generated blog_slug pageSlugs).contains it.1 then
      if it.1 == "assets" && fontsPreserve then
        some (it.1, cleanAssets it.2)
      else if it.1 == "images" then
        match it.2 with
        | FsTree.dir es => some (it.1, FsTree.dir (cleanImagesDir es))
        | FsTree.file c => some (it.1, FsTree.file c)
      else
        none
    else
      some it

/-- A user-authored subtree for the reconciliation scenario. -/
def customTree : FsTree :=
  FsTree.dir [("notes.txt", FsTree.file "my notes")]

/-! ## Build orchestration (`Stattic.build_posts_and_pages`) -/

/-- The metadata record a post contributes to the listing collection (its
payload does not matter to the claims, only how it is counted and
collected). -/
abbrev PostMeta := String

/-- The result dict `FileProcessor.process` returns. -/
structure FileResult where
  post_metadata : Option PostMeta
  images_converted : Nat
  images_cached : Nat
deriving DecidableEq, Repr

/-- A per-file outcome as the orchestrator sees it: the returned result
dict, or an exception surfaced from the worker. -/
inductive Outcome where
  | res (r : FileResult)
  | exn (msg : String)
deriving DecidableEq, Repr

/-- The `try ... except Exception` wrapper of `FileProcessor.process`: an
exception raised anywhere in the body yields the zero result dict with no
metadata. -/
def process (body : Except String FileResult) : FileResult :=
  match body with
  | .ok r => r
  | .error _ => ⟨none, 0, 0⟩

/-- The aggregate counters and collected metadata held by `Stattic`. -/
structure BuildCounters where
  posts_generated : Nat
  pages_generated : Nat
  image_conversion_count : Nat
  image_cache_count : Nat
  posts : List PostMeta
deriving DecidableEq, Repr

/-- The counters as initialized in `Stattic.__init__`. -/
def zeroCounters : BuildCounters := ⟨0, 0, 0, 0, []⟩

/-- Model of `Stattic._build_single_threaded`: process tasks in order; a per-file
exception is caught and logged and the loop continues; a returned result
dict (always truthy) feeds the counters, and pages produce no metadata. -/
def _build_single_threaded (outcome : String → Bool → Outcome) :
    List (String × Bool) → BuildCounters → BuildCounters
  | [], c => c
  | (fp, is_page) :: rest, c =>
    _build_single_threaded outcome rest
      (match outcome fp is_page with
       | .res r =>
         if is_page then
           { c with
              pages_generated := c.pages_generated + 1,
              image_conversion_count :=
                c.image_conversion_count + r.images_converted,
              image_cache_count := c.image_cache_count + r.images_cached }
         else
           { c with
              posts_generated := c.posts_generated + 1,
              image_conversion_count :=
                c.image_conversion_count + r.images_converted,
              image_cache_count := c.image_cache_count + r.images_cached,
              posts := c.posts ++
                (match r.post_metadata with
                 | some pm => [pm]
                 | none => []) }
       | .exn _ => c)

/-- The post phase of `_build_with_multiprocessing`, iterated in future
completion order; an exception from `future.result()` is caught and
logged. -/
def buildMultiPosts (outcome : String → Bool → Outcome) :
    List String → BuildCounters → BuildCounters
  | [], c => c
  | pf :: rest, c =>
    buildMultiPosts outcome rest
      (match outcome pf false with
       | .res r =>
         { c with
            posts_generated := c.posts_generated + 1,
            image_conversion_count :=
              c.image_conversion_count + r.images_converted,
            image_cache_count := c.image_cache_count + r.images_cached,
            posts := c.posts ++
              (match r.post_metadata with
               | some pm => [pm]
               | none => []) }
       | .exn _ => c)

/-- The page phase of `_build_with_multiprocessing`, iterated in future
completion order. -/
def buildMultiPages (outcome : String → Bool → Outcome) :
    List String → BuildCounters → BuildCounters
  | [], c => c
  | pg :: rest, c =>
    buildMultiPages outcome rest
      (match outcome pg true with
       | .res r =>
         { c with
            pages_generated := c.pages_generated + 1,
            image_conversion_count :=
              c.image_conversion_count + r.images_converted,
            image_cache_count := c.image_cache_count + r.images_cached }
       | .exn _ => c)

/-- Model of `Stattic._build_with_multiprocessing`: all posts first, then all
pages, each phase merged in completion order. -/
def _build_with_multiprocessing (outcome : String → Bool → Outcome)
    (postOrder pageOrder : List String) (c : BuildCounters) : BuildCounters :=
  buildMultiPages outcome pageOrder (buildMultiPosts outcome postOrder c)

/-- Model of `Stattic.build_posts_and_pages`: the task list is posts then pages;
at 12 or more files the pool strategy is used (`postOrder`/`pageOrder`
are the completion orders of the futures), below that the single-threaded
strategy. -/
def build_posts_and_pages (outcome : String → Bool → Outcome)
    (post_files page_files postOrder pageOrder : List String)
    (c : BuildCounters) : BuildCounters :=
  let tasks := post_files.map (fun f => (f, false)) ++
    page_files.map (fun f => (f, true))
  if tasks.length ≥ 12 then
    _build_with_multiprocessing outcome postOrder pageOrder c
  else
    _build_single_threaded outcome tasks c

/-- Was the outcome a returned result (no surfaced exception)? -/
def isRes : Outcome → Bool
  | .res _ => true
  | .exn _ => false

/-- Converted-image contribution of an outcome. -/
def convOf : Outcome → Nat
  | .res r => r.images_converted
  | .exn _ => 0

/-- Cached-image contribution of an outcome. -/
def cachOf : Outcome → Nat
  | .res r => r.images_cached
  | .exn _ => 0

/-- The loop body of `_build_single_threaded` factored out. -/
def mergeSingle (outcome : String → Bool → Outcome) (fp : String)
    (is_page : Bool) (c : BuildCounters) : BuildCounters :=
  match outcome fp is_page with
  | .res r =>
    if is_page then
      { c with
         pages_generated := c.pages_generated + 1,
         image_conversion_count :=
           c.image_conversion_count + r.images_converted,
         image_cache_count := c.image_cache_count + r.images_cached }
    else
      { c with
         posts_generated := c.posts_generated + 1,
         image_conversion_count :=
           c.image_conversion_count + r.images_converted,
         image_cache_count := c.image_cache_count + r.images_cached,
         posts := c.posts ++
           (match r.post_metadata with
            | some pm => [pm]
            | none => []) }
  | .exn _ => c

/-- The loop body of the post phase of `_build_with_multiprocessing`. -/
def mergePost (outcome : String → Bool → Outcome) (pf : String)
    (c : BuildCounters) : BuildCounters :=
  match outcome pf false with
  | .res r =>
    { c with
       posts_generated := c.posts_generated + 1,
       image_conversion_count :=
         c.image_conversion_count + r.images_converted,
       image_cache_count := c.image_cache_count + r.images_cached,
       posts := c.posts ++
         (match r.post_metadata with
          | some pm => [pm]
          | none => []) }
  | .exn _ => c

/-- The loop body of the page phase of `_build_with_multiprocessing`. -/
def mergePage (outcome : String → Bool → Outcome) (pg : String)
    (c : BuildCounters) : BuildCounters :=
  match outcome pg true with
  | .res r =>
    { c with
       pages_generated := c.pages_generated + 1,
       image_conversion_count :=
         c.image_conversion_count + r.images_converted,
       image_cache_count := c.image_cache_count + r.images_cached }
  | .exn _ => c

/-- A concrete outcome table: `bad.md` raises in the worker, every other
file returns a result with its name as metadata, 2 conversions and 1
cache hit. -/
def outcomeW : String → Bool → Outcome := fun f _ =>
  if f == "bad.md" then .exn "worker died" else .res ⟨some f, 2, 1⟩

/-! ## Theorems -/

/-- C1: if the hostname of a URL resolves via DNS to at least one address
inside a blocked reserved/private CIDR range, `validate_url` returns
`(false, reason)`, whatever the literal hostname string is. -/
theorem validate_url_blocks_resolved_private_ip
    (dns : String → Except String (List IPAddr)) (url : String)
    (parsed : ParsedURL) (allowedDomains : Option (List String))
    (hostname : String) (ips : List IPAddr) (ip : IPAddr)
    (hh : parsed.hostname = some hostname)
    (hdns : dns hostname = .ok ips)
    (hmem : ip ∈ ips)
    (hblocked : _is_ip_allowed ip = false) :
    (validate_url dns url parsed allowedDomains).1 = false := by
  unfold validate_url
  split
  · rfl
  · split
    · rfl
    · rw [hh]
      split
      · rfl
      · rename_i h2 heq
        injection heq with heq2
        subst heq2
        split
        · rfl
        · split
          · rfl
          · rw [hdns]
            cases hfind : ips.find? (fun ip => !(_is_ip_allowed ip)) with
            | some bad => simp [hfind]
            | none =>
              exfalso
              have := List.find?_eq_none.mp hfind ip hmem
              simp [hblocked] at this

/-- Witness for C1 at a concrete input: a benign-looking hostname that
resolves to 10.0.0.1 is rejected. -/
theorem validate_url_blocks_resolved_private_ip_witness :
    (validate_url (fun _ => .ok [IPAddr.v4 (ipv4 10 0 0 1)])
      "http://assets.example.com/pic.jpg"
      ⟨"http", "assets.example.com", some "assets.example.com"⟩ none).1
      = false :=
  validate_url_blocks_resolved_private_ip
    (fun _ => .ok [IPAddr.v4 (ipv4 10 0 0 1)])
    "http://assets.example.com/pic.jpg"
    ⟨"http", "assets.example.com", some "assets.example.com"⟩ none
    "assets.example.com" [IPAddr.v4 (ipv4 10 0 0 1)] (IPAddr.v4 (ipv4 10 0 0 1))
    rfl rfl (List.mem_singleton.mpr rfl) (by decide)

/-! ## Basic lemmas about the string and filesystem primitives -/

theorem afterResolve_webp {p : String} (w : World) (url : String) (fs : FS)
    (evs : List Ev) (h : strEndsWith p ".webp" = true) :
    afterResolve w url (some p) fs evs =
      ⟨some ("/images/" ++ mungeWebpName w p), 0, 1, fs, evs⟩ := by
  simp [afterResolve, h]

theorem download_image_hit (w : World) (output_dir : String) {url : String} {fs : FS}
    (hext : hasValidImageExt url = true)
    (hhttp : strStartsWith url "http" = true)
    (hvalid : w.validOk url = true)
    (hhit : fsExists fs (webpOf (joinPath output_dir (w.sanitize url))) = true) :
    download_image w url output_dir fs =
      (some (webpOf (joinPath output_dir (w.sanitize url))), fs,
        [.validate url,
          .logInfo ("Using cached WebP image: " ++
            webpOf (joinPath output_dir (w.sanitize url)))]) := by
  simp [download_image, hext, hhttp, hvalid, hhit]

theorem copy_local_image_hit (w : World) {lp : String} {fs : FS}
    (hex : w.localExists lp = true)
    (hhit : fsExists fs (webpOf (joinPath w.imagesDir (w.localBase lp))) = true) :
    copy_local_image w lp fs =
      (some (webpOf (joinPath w.imagesDir (w.localBase lp))), fs,
        [.logInfo ("Using cached WebP image: " ++
          webpOf (joinPath w.imagesDir (w.localBase lp)))]) := by
  simp [copy_local_image, hex, hhit]

theorem processImagesLoop_cons (w : World) (mdPath : Option String)
    (u : String) (rest : List String) (fs : FS) :
    processImagesLoop w mdPath (u :: rest) fs =
      ⟨(match (processOneUrl w mdPath u fs).mapping with
          | some p => [(u, p)]
          | none => []) ++
          (processImagesLoop w mdPath rest (processOneUrl w mdPath u fs).fs).map,
        (processOneUrl w mdPath u fs).converted +
          (processImagesLoop w mdPath rest (processOneUrl w mdPath u fs).fs).converted,
        (processOneUrl w mdPath u fs).cached +
          (processImagesLoop w mdPath rest (processOneUrl w mdPath u fs).fs).cached,
        (processImagesLoop w mdPath rest (processOneUrl w mdPath u fs).fs).fs,
        (processOneUrl w mdPath u fs).evs ++
          (processImagesLoop w mdPath rest (processOneUrl w mdPath u fs).fs).evs⟩ :=
  rfl

theorem process_images_eq (w : World) (urls : List String)
    (mdPath : Option String) (content : String) (fs : FS) :
    process_images w urls mdPath content fs =
      ⟨applyRewrites content
          (processImagesLoop w mdPath (dedupKeepFirst urls []) fs).map,
        (processImagesLoop w mdPath (dedupKeepFirst urls []) fs).converted,
        (processImagesLoop w mdPath (dedupKeepFirst urls []) fs).cached,
        (processImagesLoop w mdPath (dedupKeepFirst urls []) fs).fs,
        (processImagesLoop w mdPath (dedupKeepFirst urls []) fs).evs⟩ :=
  rfl

/-! ## Claim theorems: image pipeline -/

/-- C3: the cache lookup is made at the un-suffixed sanitized WebP name
before any uniqueness suffixing: a hit short-circuits to the cached
artifact with the filesystem untouched (no fetch, no copy), while
`_make_filename_unique` determines the materialization name only on a
miss.  Holds for both `download_image` and `copy_local_image`, and a
cache-served `.webp` path is counted as cached, never converted. -/
theorem cache_check_precedes_uniqueness (w : World)
    (url output_dir lp : String) (fs : FS) (evs : List Ev) :
    (hasValidImageExt url = true → strStartsWith url "http" = true →
      w.validOk url = true →
      (fsExists fs (webpOf (joinPath output_dir (w.sanitize url))) = true →
        download_image w url output_dir fs =
          (some (webpOf (joinPath output_dir (w.sanitize url))), fs,
            [.validate url, .logInfo ("Using cached WebP image: " ++
              webpOf (joinPath output_dir (w.sanitize url)))])) ∧
      (fsExists fs (webpOf (joinPath output_dir (w.sanitize url))) = false →
        w.netOk url = true →
        (download_image w url output_dir fs).1 =
          some (joinPath output_dir
            (_make_filename_unique w (w.sanitize url) output_dir fs)))) ∧
    (w.localExists lp = true →
      (fsExists fs (webpOf (joinPath w.imagesDir (w.localBase lp))) = true →
        copy_local_image w lp fs =
          (some (webpOf (joinPath w.imagesDir (w.localBase lp))), fs,
            [.logInfo ("Using cached WebP image: " ++
              webpOf (joinPath w.imagesDir (w.localBase lp)))])) ∧
      (fsExists fs (webpOf (joinPath w.imagesDir (w.localBase lp))) = false →
        (copy_local_image w lp fs).1 = none ∨
        (copy_local_image w lp fs).1 =
          some (joinPath w.imagesDir
            (_make_filename_unique w (w.localBase lp) w.imagesDir fs)))) ∧
    (∀ p, strEndsWith p ".webp" = true →
      (afterResolve w url (some p) fs evs).cached = 1 ∧
      (afterResolve w url (some p) fs evs).converted = 0) := by
  refine ⟨fun hext hhttp hvalid => ⟨?_, ?_⟩, fun hex => ⟨?_, ?_⟩, ?_⟩
  · exact fun hhit => download_image_hit w output_dir hext hhttp hvalid hhit
  · intro hmiss hnet
    simp [download_image, hext, hhttp, hvalid, hmiss, hnet]
  · exact fun hhit => copy_local_image_hit w hex hhit
  · intro hmiss
    by_cases hdest : fsExists fs
        (joinPath w.imagesDir (_make_filename_unique w (w.localBase lp) w.imagesDir fs)) = true
    · right
      simp [copy_local_image, hex, hmiss, hdest]
    · by_cases hcp : w.copyOk lp = true
      · right
        simp [copy_local_image, hex, hmiss, hdest, hcp]
      · left
        simp [copy_local_image, hex, hmiss, hdest, hcp]
  · intro p hp
    rw [afterResolve_webp w url fs evs hp]
    exact ⟨rfl, rfl⟩

/-- Witness for C3 at concrete inputs: a populated cache is reused by both
paths without touching the filesystem, and counted as cached. -/
theorem cache_check_precedes_uniqueness_witness :
    download_image wSrcset "http://a.example/photo.jpg" "images"
        ["images/photo.webp"] =
      (some "images/photo.webp", ["images/photo.webp"],
        [.validate "http://a.example/photo.jpg",
          .logInfo "Using cached WebP image: images/photo.webp"]) ∧
    copy_local_image wSrcset "content/posts/a.jpg" ["images/a.webp"] =
      (some "images/a.webp", ["images/a.webp"],
        [.logInfo "Using cached WebP image: images/a.webp"]) ∧
    (afterResolve wSrcset "http://a.example/photo.jpg"
        (some "images/photo.webp") ["images/photo.webp"] []).cached = 1 := by
  refine ⟨?_, ?_, ?_⟩
  · have h := ((cache_check_precedes_uniqueness wSrcset
      "http://a.example/photo.jpg" "images" "content/posts/a.jpg"
      ["images/photo.webp"] []).1 (by decide) (by decide) (by decide)).1 (by decide)
    simpa using h
  · have h := (((cache_check_precedes_uniqueness wSrcset
      "http://a.example/photo.jpg" "images" "content/posts/a.jpg"
      ["images/a.webp"] []).2.1) (by decide)).1 (by decide)
    simpa using h
  · exact (((cache_check_precedes_uniqueness wSrcset
      "http://a.example/photo.jpg" "images" "content/posts/a.jpg"
      ["images/photo.webp"] []).2.2) "images/photo.webp" (by decide)).1

/-- C5: a local reference containing `..`, or starting with `/`, or whose
resolved path is not under the content root or the markdown file's own
directory, is skipped: no mapping entry, zero conversions, the filesystem
untouched, exactly one logged warning and no other event (in particular no
local read); on a text whose only reference is that one, `process_images`
returns the text unchanged. -/
theorem unsafe_local_reference_skipped (w : World) (url m content : String)
    (fs : FS)
    (hh : strStartsWith url "http" = false)
    (hp : strStartsWith url "//" = false)
    (hbad : containsSubstr url ".." = true ∨ strStartsWith url "/" = true ∨
      localPathSafe w (joinPath w.mdDir url) = false) :
    (∃ msg, processOneUrl w (some m) url fs = ⟨none, 0, 0, fs, [.logWarn msg]⟩) ∧
    (∃ msg, process_images w [url] (some m) content fs =
      ⟨content, 0, 0, fs, [.logWarn msg]⟩) := by
  have hsh : (!(strStartsWith url "http") && !(strStartsWith url "//")) = true := by
    simp [hh, hp]
  by_cases hb : (containsSubstr url ".." || strStartsWith url "/") = true
  · have hstep : processOneUrl w (some m) url fs =
        ⟨none, 0, 0, fs,
          [.logWarn ("Skipping potentially unsafe image path: " ++ url)]⟩ := by
      simp [processOneUrl, hsh, hb]
    refine ⟨⟨_, hstep⟩,
      ⟨"Skipping potentially unsafe image path: " ++ url, ?_⟩⟩
    rw [process_images_eq,
      show dedupKeepFirst [url] [] = [url] from rfl,
      processImagesLoop_cons, hstep]
    rfl
  · have hsafe : localPathSafe w (joinPath w.mdDir url) = false := by
      rcases hbad with h1 | h2 | h3
      · exact absurd (by simp [h1]) hb
      · exact absurd (by simp [h2]) hb
      · exact h3
    have hstep : processOneUrl w (some m) url fs =
        ⟨none, 0, 0, fs,
          [.logWarn ("Skipping image path outside content directory: " ++ url)]⟩ := by
      simp [processOneUrl, hsh, hb, hsafe]
    refine ⟨⟨_, hstep⟩,
      ⟨"Skipping image path outside content directory: " ++ url, ?_⟩⟩
    rw [process_images_eq,
      show dedupKeepFirst [url] [] = [url] from rfl,
      processImagesLoop_cons, hstep]
    rfl

/-- Witness for C5: the spec's `../../etc/passwd.png` scenario. -/
theorem unsafe_local_reference_skipped_witness :
    (∃ msg, processOneUrl wSrcset "content/posts/p.md"
        "../../etc/passwd.png" [] = ⟨none, 0, 0, [], [.logWarn msg]⟩) ∧
    (∃ msg, process_images wSrcset ["../../etc/passwd.png"]
        (some "content/posts/p.md") "![x](../../etc/passwd.png)" [] =
      ⟨"![x](../../etc/passwd.png)", 0, 0, [], [.logWarn msg]⟩) := by
  have h := unsafe_local_reference_skipped wSrcset "../../etc/passwd.png"
    "content/posts/p.md" "![x](../../etc/passwd.png)" []
    (by decide) (by decide) (Or.inl (by decide))
  exact ⟨h.1, h.2⟩

/-- Helper for the amended C9: the lookahead substitution leaves a
character list without any occurrence of the pattern unchanged. -/
theorem subLAGo_of_not_contains (pat new : List Char) :
    ∀ (fuel : Nat) (l : List Char), containsSubstrGo pat l = false →
      subLAGo pat new fuel l = l
  | 0, l, _ => by cases l <;> rfl
  | _ + 1, [], _ => rfl
  | fuel + 1, c :: cs, h => by
    have h2 : pat.isPrefixOf (c :: cs) = false ∧
        containsSubstrGo pat cs = false := by
      simpa [containsSubstrGo] using h
    simp [subLAGo, h2.1, subLAGo_of_not_contains pat new fuel cs h2.2]

/-- Helper for the amended C9, at the `String` level: the rewrite
primitive `re.sub(escape(pat) + lookahead)` does not touch a text that
contains no occurrence of `pat` at all. -/
theorem strSubLA_of_not_contains (content pat new : String)
    (h : containsSubstr content pat = false) :
    strSubLA content pat new = content := by
  show String.mk (subLAGo pat.data new.data content.data.length content.data)
    = content
  rw [subLAGo_of_not_contains pat.data new.data content.data.length
    content.data h]

/-- C9 counterexample: the rewrite is NOT entry-by-entry.  In the value
`b.jpg 1x, ab.jpg 2x`, where only `b.jpg` converts, the global
`re.sub(escape(url) + lookahead)` also matches the trailing `b.jpg`
inside the unconverted `ab.jpg` entry (it is followed by a space), so
that entry comes out corrupted as `a/images/b.webp 2x` instead of being
left intact as `ab.jpg 2x`. -/
theorem srcset_rewrite_not_entrywise :
    extract_srcset_urls c9bContent = ["b.jpg", "1x", "ab.jpg", "2x"] ∧
    (process_images wSrcsetB (extract_srcset_urls c9bContent)
        (some "content/posts/p.md") c9bContent []).text =
      "<img srcset=\"/images/b.webp 1x, a/images/b.webp 2x\">" ∧
    (process_images wSrcsetB (extract_srcset_urls c9bContent)
        (some "content/posts/p.md") c9bContent []).text ≠
      "<img srcset=\"/images/b.webp 1x, ab.jpg 2x\">" := by
  decide

/-- C9 (amended): the `srcset` rewrite is a global textual substitution
of each converted URL at every occurrence followed by whitespace, a
comma, or the end of the text — not a per-entry rewrite.  It never
touches text containing no such occurrence (so descriptor tokens and
unconverted entries whose text does not embed a converted URL stay
intact), and on the spec's scenario `a.jpg 1x, b.jpg 2x` with only
`a.jpg` converting it produces `/images/a.webp 1x, b.jpg 2x`, keeping
the unconverted entry and both descriptors.  (A URL occurring as a
trailing fragment of a longer token is rewritten inside that token, per
the counterexample.) -/
theorem srcset_rewrite_global_substitution :
    (∀ content pat new : String, containsSubstr content pat = false →
      strSubLA content pat new = content) ∧
    extract_srcset_urls c9content = ["a.jpg", "1x", "b.jpg", "2x"] ∧
    (process_images wSrcset (extract_srcset_urls c9content)
        (some "content/posts/p.md") c9content []).text =
      "<img srcset=\"/images/a.webp 1x, b.jpg 2x\">" ∧
    (process_images wSrcset (extract_srcset_urls c9content)
        (some "content/posts/p.md") c9content []).converted = 1 := by
  refine ⟨strSubLA_of_not_contains, ?_, ?_, ?_⟩ <;> decide

/-- Witness for the amended C9: the no-occurrence part applied at a
concrete input — rewriting `a.jpg` leaves the `b.jpg 2x` entry text
untouched. -/
theorem srcset_rewrite_global_substitution_witness :
    strSubLA "b.jpg 2x" "a.jpg" "/images/a.webp" = "b.jpg 2x" :=
  srcset_rewrite_global_substitution.1 "b.jpg 2x" "a.jpg" "/images/a.webp"
    (by decide)

/-- C10: `download_image` returns `None` immediately for every URL without
one of the seven allowed image extensions: no URL validation, no HTTP
request, no file write and no log entry happen. -/
theorem download_image_requires_extension (w : World)
    (url output_dir : String) (fs : FS)
    (h : hasValidImageExt url = false) :
    download_image w url output_dir fs = (none, fs, []) := by
  simp [download_image, h]

/-- Witness for C10: an extensionless remote image URL is silently
dropped. -/
theorem download_image_requires_extension_witness :
    hasValidImageExt "https://example.com/photo" = false ∧
    download_image wPhoto "https://example.com/photo" "images" [] =
      (none, [], []) :=
  ⟨by decide, download_image_requires_extension wPhoto
    "https://example.com/photo" "images" [] (by decide)⟩

/-- C4: `create_output_dir` never deletes or modifies a top-level entry
whose name is not in the computed generator-owned name set: the entry is
still present, bytes and subtree identical, after reconciliation. -/
theorem create_output_dir_preserves_user_entries (blog_slug : String)
    (pageSlugs : List String) (fontsPreserve : Bool)
    (cleanAssets : FsTree → FsTree) (items : List (String × FsTree))
    (name : String) (t : FsTree) (hmem : (name, t) ∈ items)
    (hgen : (stattic_generated blog_slug pageSlugs).contains name = false) :
    (name, t) ∈
      create_output_dir blog_slug pageSlugs fontsPreserve cleanAssets items := by
  have hgen2 : name ∉ stattic_generated blog_slug pageSlugs := by
    simpa using hgen
  rw [create_output_dir]
  exact List.mem_filterMap.mpr ⟨(name, t), hmem, by simp [hgen2]⟩

/-- Witness for C4: a hand-added `custom/notes.txt` survives a rebuild of
an output root that also holds generator-owned entries. -/
theorem create_output_dir_preserves_user_entries_witness :
    ("custom", customTree) ∈
      create_output_dir "blog" ["about"] true id
        [("custom", customTree), ("index.html", FsTree.file "old"),
          ("images", FsTree.dir [("photo.webp", FsTree.file "bytes"),
            ("leftover.jpg", FsTree.file "junk")])] :=
  create_output_dir_preserves_user_entries "blog" ["about"] true id
    [("custom", customTree), ("index.html", FsTree.file "old"),
      ("images", FsTree.dir [("photo.webp", FsTree.file "bytes"),
        ("leftover.jpg", FsTree.file "junk")])]
    "custom" customTree (List.mem_cons_self _ _) (by decide)

theorem single_threaded_cons (outcome : String → Bool → Outcome)
    (fp : String) (ip : Bool) (rest : List (String × Bool))
    (c : BuildCounters) :
    _build_single_threaded outcome ((fp, ip) :: rest) c =
      _build_single_threaded outcome rest (mergeSingle outcome fp ip c) :=
  rfl

theorem mergeSingle_fields (outcome : String → Bool → Outcome)
    (fp : String) (ip : Bool) (c : BuildCounters) :
    (mergeSingle outcome fp ip c).posts_generated =
      c.posts_generated + (if !ip && isRes (outcome fp ip) then 1 else 0) ∧
    (mergeSingle outcome fp ip c).pages_generated =
      c.pages_generated + (if ip && isRes (outcome fp ip) then 1 else 0) ∧
    (mergeSingle outcome fp ip c).image_conversion_count =
      c.image_conversion_count + convOf (outcome fp ip) ∧
    (mergeSingle outcome fp ip c).image_cache_count =
      c.image_cache_count + cachOf (outcome fp ip) := by
  rcases ho : outcome fp ip with r | msg
  · cases ip <;> simp [mergeSingle, ho, isRes, convOf, cachOf]
  · cases ip <;> simp [mergeSingle, ho, isRes, convOf, cachOf]

/-- Closed form of the single-threaded counters. -/
theorem single_threaded_counts (outcome : String → Bool → Outcome)
    (ts : List (String × Bool)) (c : BuildCounters) :
    (_build_single_threaded outcome ts c).posts_generated =
      c.posts_generated +
        (ts.countP fun t => !t.2 && isRes (outcome t.1 t.2)) ∧
    (_build_single_threaded outcome ts c).pages_generated =
      c.pages_generated +
        (ts.countP fun t => t.2 && isRes (outcome t.1 t.2)) ∧
    (_build_single_threaded outcome ts c).image_conversion_count =
      c.image_conversion_count +
        (ts.map fun t => convOf (outcome t.1 t.2)).sum ∧
    (_build_single_threaded outcome ts c).image_cache_count =
      c.image_cache_count +
        (ts.map fun t => cachOf (outcome t.1 t.2)).sum := by
  induction ts generalizing c with
  | nil => exact ⟨rfl, rfl, rfl, rfl⟩
  | cons t rest ih =>
    obtain ⟨fp, ip⟩ := t
    obtain ⟨h1, h2, h3, h4⟩ := ih (mergeSingle outcome fp ip c)
    obtain ⟨m1, m2, m3, m4⟩ := mergeSingle_fields outcome fp ip c
    rw [single_threaded_cons]
    refine ⟨?_, ?_, ?_, ?_⟩
    · rw [h1, m1, List.countP_cons]; simp; omega
    · rw [h2, m2, List.countP_cons]; simp; omega
    · rw [h3, m3]; simp; omega
    · rw [h4, m4]; simp; omega

theorem buildMultiPosts_cons (outcome : String → Bool → Outcome)
    (pf : String) (rest : List String) (c : BuildCounters) :
    buildMultiPosts outcome (pf :: rest) c =
      buildMultiPosts outcome rest (mergePost outcome pf c) :=
  rfl

theorem buildMultiPages_cons (outcome : String → Bool → Outcome)
    (pg : String) (rest : List String) (c : BuildCounters) :
    buildMultiPages outcome (pg :: rest) c =
      buildMultiPages outcome rest (mergePage outcome pg c) :=
  rfl

theorem mergePost_fields (outcome : String → Bool → Outcome) (pf : String)
    (c : BuildCounters) :
    (mergePost outcome pf c).posts_generated =
      c.posts_generated + (if isRes (outcome pf false) then 1 else 0) ∧
    (mergePost outcome pf c).pages_generated = c.pages_generated ∧
    (mergePost outcome pf c).image_conversion_count =
      c.image_conversion_count + convOf (outcome pf false) ∧
    (mergePost outcome pf c).image_cache_count =
      c.image_cache_count + cachOf (outcome pf false) := by
  rcases ho : outcome pf false with r | msg <;>
    simp [mergePost, ho, isRes, convOf, cachOf]

theorem mergePage_fields (outcome : String → Bool → Outcome) (pg : String)
    (c : BuildCounters) :
    (mergePage outcome pg c).posts_generated = c.posts_generated ∧
    (mergePage outcome pg c).pages_generated =
      c.pages_generated + (if isRes (outcome pg true) then 1 else 0) ∧
    (mergePage outcome pg c).image_conversion_count =
      c.image_conversion_count + convOf (outcome pg true) ∧
    (mergePage outcome pg c).image_cache_count =
      c.image_cache_count + cachOf (outcome pg true) := by
  rcases ho : outcome pg true with r | msg <;>
    simp [mergePage, ho, isRes, convOf, cachOf]

/-- Closed form of the post-phase counters. -/
theorem buildMultiPosts_counts (outcome : String → Bool → Outcome)
    (l : List String) (c : BuildCounters) :
    (buildMultiPosts outcome l c).posts_generated =
      c.posts_generated + (l.countP fun f => isRes (outcome f false)) ∧
    (buildMultiPosts outcome l c).pages_generated = c.pages_generated ∧
    (buildMultiPosts outcome l c).image_conversion_count =
      c.image_conversion_count + (l.map fun f => convOf (outcome f false)).sum ∧
    (buildMultiPosts outcome l c).image_cache_count =
      c.image_cache_count + (l.map fun f => cachOf (outcome f false)).sum := by
  induction l generalizing c with
  | nil => exact ⟨rfl, rfl, rfl, rfl⟩
  | cons pf rest ih =>
    obtain ⟨h1, h2, h3, h4⟩ := ih (mergePost outcome pf c)
    obtain ⟨m1, m2, m3, m4⟩ := mergePost_fields outcome pf c
    rw [buildMultiPosts_cons]
    refine ⟨?_, ?_, ?_, ?_⟩
    · rw [h1, m1, List.countP_cons]; omega
    · rw [h2, m2]
    · rw [h3, m3]; simp; omega
    · rw [h4, m4]; simp; omega

/-- Closed form of the page-phase counters. -/
theorem buildMultiPages_counts (outcome : String → Bool → Outcome)
    (l : List String) (c : BuildCounters) :
    (buildMultiPages outcome l c).posts_generated = c.posts_generated ∧
    (buildMultiPages outcome l c).pages_generated =
      c.pages_generated + (l.countP fun f => isRes (outcome f true)) ∧
    (buildMultiPages outcome l c).image_conversion_count =
      c.image_conversion_count + (l.map fun f => convOf (outcome f true)).sum ∧
    (buildMultiPages outcome l c).image_cache_count =
      c.image_cache_count + (l.map fun f => cachOf (outcome f true)).sum := by
  induction l generalizing c with
  | nil => exact ⟨rfl, rfl, rfl, rfl⟩
  | cons pg rest ih =>
    obtain ⟨h1, h2, h3, h4⟩ := ih (mergePage outcome pg c)
    obtain ⟨m1, m2, m3, m4⟩ := mergePage_fields outcome pg c
    rw [buildMultiPages_cons]
    refine ⟨?_, ?_, ?_, ?_⟩
    · rw [h1, m1]
    · rw [h2, m2, List.countP_cons]; omega
    · rw [h3, m3]; simp; omega
    · rw [h4, m4]; simp; omega

/-- C7: with the same per-file outcomes, the strategy
`build_posts_and_pages` selects by the 12-file threshold produces exactly
the single-threaded counters — posts generated, pages generated,
converted, cached — whatever completion orders the pool's futures have.
The per-file success/failure classification is `isRes ∘ outcome` in both
strategies, so it coincides file by file as well. -/
theorem build_strategy_equivalent (outcome : String → Bool → Outcome)
    (post_files page_files postOrder pageOrder : List String)
    (c : BuildCounters)
    (hp : postOrder.Perm post_files) (hq : pageOrder.Perm page_files) :
    (build_posts_and_pages outcome post_files page_files postOrder
        pageOrder c).posts_generated =
      (_build_single_threaded outcome
        (post_files.map (fun f => (f, false)) ++
          page_files.map (fun f => (f, true))) c).posts_generated ∧
    (build_posts_and_pages outcome post_files page_files postOrder
        pageOrder c).pages_generated =
      (_build_single_threaded outcome
        (post_files.map (fun f => (f, false)) ++
          page_files.map (fun f => (f, true))) c).pages_generated ∧
    (build_posts_and_pages outcome post_files page_files postOrder
        pageOrder c).image_conversion_count =
      (_build_single_threaded outcome
        (post_files.map (fun f => (f, false)) ++
          page_files.map (fun f => (f, true))) c).image_conversion_count ∧
    (build_posts_and_pages outcome post_files page_files postOrder
        pageOrder c).image_cache_count =
      (_build_single_threaded outcome
        (post_files.map (fun f => (f, false)) ++
          page_files.map (fun f => (f, true))) c).image_cache_count := by
  obtain ⟨s1, s2, s3, s4⟩ := single_threaded_counts outcome
    (post_files.map (fun f => (f, false)) ++
      page_files.map (fun f => (f, true))) c
  obtain ⟨p1, p2, p3, p4⟩ := buildMultiPosts_counts outcome postOrder c
  obtain ⟨q1, q2, q3, q4⟩ := buildMultiPages_counts outcome pageOrder
    (buildMultiPosts outcome postOrder c)
  by_cases hlen : (post_files.map (fun f => (f, false)) ++
      page_files.map (fun f => (f, true))).length ≥ 12
  · have hb : build_posts_and_pages outcome post_files page_files postOrder
        pageOrder c =
        buildMultiPages outcome pageOrder
          (buildMultiPosts outcome postOrder c) := by
      show (if (post_files.map (fun f => (f, false)) ++
          page_files.map (fun f => (f, true))).length ≥ 12 then _ else _) = _
      rw [if_pos hlen]
      rfl
    rw [hb]
    refine ⟨?_, ?_, ?_, ?_⟩
    · rw [q1, p1, s1, hp.countP_eq, List.countP_append, List.countP_map,
        List.countP_map]
      simp [Function.comp_def]
    · rw [q2, p2, s2, hq.countP_eq, List.countP_append, List.countP_map,
        List.countP_map]
      simp [Function.comp_def]
    · rw [q3, p3, s3, (hp.map fun f => convOf (outcome f false)).sum_eq,
        (hq.map fun f => convOf (outcome f true)).sum_eq,
        List.map_append, List.sum_append, List.map_map, List.map_map]
      simp [Function.comp_def]
      omega
    · rw [q4, p4, s4, (hp.map fun f => cachOf (outcome f false)).sum_eq,
        (hq.map fun f => cachOf (outcome f true)).sum_eq,
        List.map_append, List.sum_append, List.map_map, List.map_map]
      simp [Function.comp_def]
      omega
  · have hb : build_posts_and_pages outcome post_files page_files postOrder
        pageOrder c =
        _build_single_threaded outcome
          (post_files.map (fun f => (f, false)) ++
            page_files.map (fun f => (f, true))) c := by
      show (if (post_files.map (fun f => (f, false)) ++
          page_files.map (fun f => (f, true))).length ≥ 12 then _ else _) = _
      rw [if_neg hlen]
    rw [hb]
    exact ⟨rfl, rfl, rfl, rfl⟩

/-- Witness for C7: three posts (one failing) and one page, with the pool
completing in reversed order, give the same counters as the
single-threaded pass. -/
theorem build_strategy_equivalent_witness :
    (build_posts_and_pages outcomeW ["a.md", "b.md", "bad.md"] ["p.md"]
        ["bad.md", "b.md", "a.md"] ["p.md"] zeroCounters).posts_generated =
      (_build_single_threaded outcomeW
        ((["a.md", "b.md", "bad.md"].map (fun f => (f, false))) ++
          (["p.md"].map (fun f => (f, true)))) zeroCounters).posts_generated ∧
    (build_posts_and_pages outcomeW ["a.md", "b.md", "bad.md"] ["p.md"]
        ["bad.md", "b.md", "a.md"] ["p.md"] zeroCounters).pages_generated =
      (_build_single_threaded outcomeW
        ((["a.md", "b.md", "bad.md"].map (fun f => (f, false))) ++
          (["p.md"].map (fun f => (f, true)))) zeroCounters).pages_generated ∧
    (build_posts_and_pages outcomeW ["a.md", "b.md", "bad.md"] ["p.md"]
        ["bad.md", "b.md", "a.md"] ["p.md"] zeroCounters).image_conversion_count =
      (_build_single_threaded outcomeW
        ((["a.md", "b.md", "bad.md"].map (fun f => (f, false))) ++
          (["p.md"].map (fun f => (f, true)))) zeroCounters).image_conversion_count ∧
    (build_posts_and_pages outcomeW ["a.md", "b.md", "bad.md"] ["p.md"]
        ["bad.md", "b.md", "a.md"] ["p.md"] zeroCounters).image_cache_count =
      (_build_single_threaded outcomeW
        ((["a.md", "b.md", "bad.md"].map (fun f => (f, false))) ++
          (["p.md"].map (fun f => (f, true)))) zeroCounters).image_cache_count :=
  build_strategy_equivalent outcomeW ["a.md", "b.md", "bad.md"] ["p.md"]
    ["bad.md", "b.md", "a.md"] ["p.md"] zeroCounters (by decide) (by decide)

/-- C8 counterexample: an exception raised inside `FileProcessor.process`
is caught there and turned into the zero result dict — which the
orchestrator then counts as a generated post.  So an internally failing
file contributes 1, not 0, to the `posts_generated` counter. -/
theorem internal_failure_counted_as_generated :
    process (.error "TemplateNotFound: post.html") =
      ⟨none, 0, 0⟩ ∧
    (_build_single_threaded
        (fun _ _ => .res (process (.error "TemplateNotFound: post.html")))
        [("post1.md", false)] zeroCounters).posts_generated = 1 :=
  ⟨rfl, rfl⟩

/-- C8 (amended): a failure surfaced to the orchestrator (an exception
reaching the strategy loop) is caught and contributes zero to every
counter while the remaining files are still processed — the build over
the tasks with the failing file equals the build without it, in both
strategies; a failure caught inside `FileProcessor.process` instead
returns the zero-image, no-metadata result dict (so it adds nothing to
the image counters or metadata, though the orchestrator still counts the
file as generated). -/
theorem per_file_failure_isolated (outcome : String → Bool → Outcome)
    (t1 t2 : List (String × Bool)) (l1 l2 : List String) (f : String)
    (p : Bool) (e : String) (c : BuildCounters) :
    (outcome f p = .exn e →
      _build_single_threaded outcome (t1 ++ (f, p) :: t2) c =
        _build_single_threaded outcome (t1 ++ t2) c) ∧
    (outcome f false = .exn e →
      buildMultiPosts outcome (l1 ++ f :: l2) c =
        buildMultiPosts outcome (l1 ++ l2) c) ∧
    (outcome f true = .exn e →
      buildMultiPages outcome (l1 ++ f :: l2) c =
        buildMultiPages outcome (l1 ++ l2) c) ∧
    process (.error e) = ⟨none, 0, 0⟩ := by
  refine ⟨?_, ?_, ?_, rfl⟩
  · intro he
    induction t1 generalizing c with
    | nil =>
      rw [List.nil_append, List.nil_append, single_threaded_cons,
        show mergeSingle outcome f p c = c from by simp [mergeSingle, he]]
    | cons t rest ih =>
      obtain ⟨fp, ip⟩ := t
      rw [List.cons_append, List.cons_append, single_threaded_cons,
        single_threaded_cons]
      exact ih (mergeSingle outcome fp ip c)
  · intro he
    induction l1 generalizing c with
    | nil =>
      rw [List.nil_append, List.nil_append, buildMultiPosts_cons,
        show mergePost outcome f c = c from by simp [mergePost, he]]
    | cons g rest ih =>
      rw [List.cons_append, List.cons_append, buildMultiPosts_cons,
        buildMultiPosts_cons]
      exact ih (mergePost outcome g c)
  · intro he
    induction l1 generalizing c with
    | nil =>
      rw [List.nil_append, List.nil_append, buildMultiPages_cons,
        show mergePage outcome f c = c from by simp [mergePage, he]]
    | cons g rest ih =>
      rw [List.cons_append, List.cons_append, buildMultiPages_cons,
        buildMultiPages_cons]
      exact ih (mergePage outcome g c)

/-- Witness for the amended C8: dropping the failing `bad.md` from the
task list does not change the single-threaded build result, and an
internal failure yields the zero result dict. -/
theorem per_file_failure_isolated_witness :
    _build_single_threaded outcomeW
        [("a.md", false), ("bad.md", false), ("b.md", false)] zeroCounters =
      _build_single_threaded outcomeW
        [("a.md", false), ("b.md", false)] zeroCounters ∧
    process (.error "worker died") = ⟨none, 0, 0⟩ :=
  ⟨(per_file_failure_isolated outcomeW [("a.md", false)] [("b.md", false)]
      [] [] "bad.md" false "worker died" zeroCounters).1 (by decide),
    (per_file_failure_isolated outcomeW [] [] [] [] "bad.md" false
      "worker died" zeroCounters).2.2.2⟩

end Stattic
